import Mathlib

/-!
Verification of the JSON-Schema-to-Spark-SQL type mapper
(`src/json2spark_mapper/schema_mapper.py`).

The Python module is a pure, recursive translation from a JSON Schema
node (an untyped dict) to a Spark SQL type.  We shallow-embed it here:

* `Node` models a JSON Schema node, with one field per recognized key
  (`type`, `properties`, `required`, `items`, `format`,
  `minimum`/`exclusiveMinimum`/`maximum`/`exclusiveMaximum`, and
  presence flags for `anyOf` and `const`).  Absent keys are `none`
  (resp. `false` for the presence-only keys).
* `SparkType` models the pyspark type values the module constructs.
  Because the Python function `_map_json_type_to_spark_type` can fall
  through and return `None`, field types and array element types are
  `Option SparkType` — exactly the value Python would pass to
  `StructField`/`ArrayType`.
* Exceptions are modelled with `Except MapErr`: `keyError k` is a
  Python `KeyError` on key `k`, `invalidType t` the
  `ValueError("Invalid JSON type: ...")` raised for an unrecognized
  `type` string, and `emptyItems` the
  `Exception("Expected a least one type definition in an array")`.
-/

namespace Json2Spark

/-- A JSON Schema node as the Python module reads it: each recognized
dictionary key becomes a field, `none`/`false` meaning the key is absent.
`items` is either a single node (`Sum.inl`) or a list of nodes
(`Sum.inr`), mirroring the dict-or-list check in the source. -/
inductive Node : Type where
  | mk
      (ty : Option String)
      (props : Option (List (String × Node)))
      (req : Option (List String))
      (items : Option (Node ⊕ List Node))
      (format : Option String)
      (minimum : Option Int)
      (exclusiveMinimum : Option Int)
      (maximum : Option Int)
      (exclusiveMaximum : Option Int)
      (anyOf : Bool)
      (constKey : Bool)

/-- The value of the `type` key, when present. -/
def Node.ty : Node → Option String
  | .mk t _ _ _ _ _ _ _ _ _ _ => t

/-- The value of the `properties` key: an ordered association list,
preserving the dict's insertion order. -/
def Node.props : Node → Option (List (String × Node))
  | .mk _ p _ _ _ _ _ _ _ _ _ => p

/-- The value of the `required` key, when present. -/
def Node.req : Node → Option (List String)
  | .mk _ _ r _ _ _ _ _ _ _ _ => r

/-- The value of the `items` key, when present. -/
def Node.items : Node → Option (Node ⊕ List Node)
  | .mk _ _ _ i _ _ _ _ _ _ _ => i

/-- The value of the `format` key, when present. -/
def Node.format : Node → Option String
  | .mk _ _ _ _ f _ _ _ _ _ _ => f

/-- The value of the `minimum` key, when present. -/
def Node.minimum : Node → Option Int
  | .mk _ _ _ _ _ m _ _ _ _ _ => m

/-- The value of the `exclusiveMinimum` key, when present. -/
def Node.exclusiveMinimum : Node → Option Int
  | .mk _ _ _ _ _ _ m _ _ _ _ => m

/-- The value of the `maximum` key, when present. -/
def Node.maximum : Node → Option Int
  | .mk _ _ _ _ _ _ _ m _ _ _ => m

/-- The value of the `exclusiveMaximum` key, when present. -/
def Node.exclusiveMaximum : Node → Option Int
  | .mk _ _ _ _ _ _ _ _ m _ _ => m

/-- Whether the `anyOf` key is present. -/
def Node.anyOf : Node → Bool
  | .mk _ _ _ _ _ _ _ _ _ a _ => a

/-- Whether the `const` key is present. -/
def Node.constKey : Node → Bool
  | .mk _ _ _ _ _ _ _ _ _ _ c => c

/-- The pyspark type values the module builds.  A struct field is
`(name, dataType, nullable)`; the data type is an `Option` because
`_map_json_type_to_spark_type` can return Python `None`, which the
caller stores in the field unchanged.  Likewise an array's element type
is whatever that function returned, possibly `None`. -/
inductive SparkType : Type where
  | byteType
  | shortType
  | integerType
  | longType
  | floatType
  | doubleType
  | stringType
  | booleanType
  | timestampType
  | dateType
  | nullType
  | arrayType (elem : Option SparkType)
  | structType (fields : List (String × Option SparkType × Bool))

/-- The exceptions the Python code can raise while mapping. -/
inductive MapErr : Type where
  | keyError (key : String)
  | invalidType (t : String)
  | emptyItems

/-- Translation of `_convert_json_string`: default `StringType`, with
`format == "date-time"` giving `TimestampType` and `format == "date"`
giving `DateType`; any other format keeps the default. -/
def _convert_json_string (value : Node) : SparkType :=
  match value.format with
  | none => .stringType
  | some f =>
      if f = "date-time" then .timestampType
      else if f = "date" then .dateType
      else .stringType

/-- The inclusive numeric range dict built by
`_determine_inclusive_range`: `{"min": ..., "max": ..., "defined": ...}`. -/
structure IncRange where
  min : Option Int
  max : Option Int
  defined : Bool

/-- Translation of `_determine_inclusive_range`: `min` is set from
`minimum`, then overwritten by `exclusiveMinimum - 1` when that key is
present; `max` likewise from `maximum` then `exclusiveMaximum - 1`;
`defined` is true exactly when both ended up set. -/
def _determine_inclusive_range (value : Node) : IncRange :=
  let min0 : Option Int := match value.minimum with
    | some m => some m
    | none => none
  let min1 : Option Int := match value.exclusiveMinimum with
    | some m => some (m - 1)
    | none => min0
  let max0 : Option Int := match value.maximum with
    | some m => some m
    | none => none
  let max1 : Option Int := match value.exclusiveMaximum with
    | some m => some (m - 1)
    | none => max0
  { min := min1, max := max1, defined := min1.isSome && max1.isSome }

/-- Membership in Python's `range(-128, 127 + 1)`. -/
def inByteRange (n : Int) : Bool := -128 ≤ n && n ≤ 127

/-- Membership in Python's `range(-32768, 32767 + 1)`. -/
def inShortRange (n : Int) : Bool := -32768 ≤ n && n ≤ 32767

/-- Membership in Python's `range(-2147483648, 2147483647 + 1)`. -/
def inIntRange (n : Int) : Bool := -2147483648 ≤ n && n ≤ 2147483647

/-- Translation of `_convert_json_int`: default `LongType`; when the
inclusive range is defined, the first of byte/short/int whose range
contains both bounds wins, else the default stands. -/
def _convert_json_int (value : Node) : SparkType :=
  let determined_range := _determine_inclusive_range value
  if determined_range.defined then
    match determined_range.min, determined_range.max with
    | some mn, some mx =>
        if inByteRange mn && inByteRange mx then .byteType
        else if inShortRange mn && inShortRange mx then .shortType
        else if inIntRange mn && inIntRange mx then .integerType
        else .longType
    | _, _ => .longType
  else .longType

/-- Translation of `_convert_json_number`: always `DoubleType`. -/
def _convert_json_number (_value : Node) : SparkType := .doubleType

/-- Normalization of the `items` value: a single node is wrapped into a
one-element list, a list is kept as is (the `isinstance(..., dict)`
branch of the source). -/
def normalizeItems : Node ⊕ List Node → List Node
  | .inl d => [d]
  | .inr l => l

mutual

/-- Translation of `from_json_to_spark`: reads `schema['properties']`
(a `KeyError` when absent), maps every `(key, value)` pair in order to
a field whose nullability is false exactly when `key` is in
`schema.get('required', [])`, and wraps the fields in a `StructType`. -/
def from_json_to_spark (schema : Node) : Except MapErr SparkType :=
  match h : schema.props with
  | none => .error (.keyError "properties")
  | some ps => (mapFields schema ps).map SparkType.structType
termination_by (sizeOf schema, 1)
decreasing_by
  simp_wf
  apply Prod.Lex.left
  cases schema with
  | mk t p rq i f mn emn mx emx a c =>
      simp only [Node.props] at h
      subst h
      simp
      omega

/-- The body of the `for key, value in properties.items()` loop of
`from_json_to_spark`: each property contributes one field
`(key, field_type, nullable)`, errors from the recursive mapping
propagating unchanged. -/
def mapFields (schema : Node) : List (String × Node) →
    Except MapErr (List (String × Option SparkType × Bool))
  | [] => .ok []
  | (key, value) :: rest =>
      (_map_json_type_to_spark_type value).bind fun ft =>
        (mapFields schema rest).map fun tail =>
          (key, ft, !((schema.req.getD []).contains key)) :: tail
termination_by l => (sizeOf l, 0)
decreasing_by
  all_goals simp_wf
  all_goals apply Prod.Lex.left
  all_goals omega

/-- Translation of `_map_json_type_to_spark_type`: dispatch on the
`type` key, falling back to the `anyOf`/`const` keywords when it is
absent; with none of them the initial `None` is returned.  The `array`
branch normalizes `items`, rejects an empty list, then runs the
item loop; an absent `items` key leaves the result `None`. -/
def _map_json_type_to_spark_type (value : Node) : Except MapErr (Option SparkType) :=
  match value.ty with
  | some t =>
      if t = "string" then .ok (some (_convert_json_string value))
      else if t = "boolean" then .ok (some .booleanType)
      else if t = "integer" then .ok (some (_convert_json_int value))
      else if t = "number" then .ok (some (_convert_json_number value))
      else if t = "array" then
        match h : value.items with
        | none => .ok none
        | some its =>
            let items_schemas := normalizeItems its
            if items_schemas.length < 1 then .error .emptyItems
            else arrayLoop none items_schemas
      else if t = "object" then (from_json_to_spark value).map fun st => some st
      else if t = "null" then .ok (some .nullType)
      else if t = "any" then .ok (some .stringType)
      else .error (.invalidType t)
  | none =>
      if value.anyOf then .ok (some .stringType)
      else if value.constKey then .ok (some .stringType)
      else .ok none
termination_by (sizeOf value, 3)
decreasing_by
  all_goals simp_wf
  · apply Prod.Lex.left
    cases value with
    | mk t p rq i f mn emn mx emx a c =>
        simp only [Node.items] at h
        subst h
        cases its <;> simp [normalizeItems] <;> omega
  · apply Prod.Lex.right
    omega

/-- The `for item_schema in items_schemas` loop of the `array` branch:
each iteration overwrites `field_type` with the `ArrayType` built from
the current item, so the last item wins. -/
def arrayLoop (fieldType : Option SparkType) :
    List Node → Except MapErr (Option SparkType)
  | [] => .ok fieldType
  | item :: rest => (itemStep item).bind fun ft => arrayLoop ft rest
termination_by l => (sizeOf l, 0)
decreasing_by
  all_goals simp_wf
  all_goals apply Prod.Lex.left
  all_goals omega

/-- One iteration of the item loop: reads `item_schema['type']` (a
`KeyError` when the key is absent); an `object` item becomes an
`ArrayType` of its struct, any other item an `ArrayType` of its mapped
type. -/
def itemStep (item : Node) : Except MapErr (Option SparkType) :=
  match item.ty with
  | none => .error (.keyError "type")
  | some t =>
      if t = "object" then
        (from_json_to_spark item).map fun st => some (.arrayType (some st))
      else
        (_map_json_type_to_spark_type item).map fun ft => some (.arrayType ft)
termination_by (sizeOf item, 4)
decreasing_by
  all_goals simp_wf
  all_goals apply Prod.Lex.right
  all_goals omega

end

/-- Spec-side selection rule, written from the spec's words for
comparison with `_convert_json_int`: select the narrowest of
`Byte` ([-128,127]), `Short` ([-32768,32767]),
`Int32` ([-2147483648,2147483647]), `Int64` (default) that contains
both `min` and `max` inclusively, checked narrowest-first. -/
def narrowestFit (mn mx : Int) : SparkType :=
  if (-128 ≤ mn ∧ mn ≤ 127) ∧ (-128 ≤ mx ∧ mx ≤ 127) then .byteType
  else if (-32768 ≤ mn ∧ mn ≤ 32767) ∧ (-32768 ≤ mx ∧ mx ≤ 32767) then .shortType
  else if (-2147483648 ≤ mn ∧ mn ≤ 2147483647) ∧
      (-2147483648 ≤ mx ∧ mx ≤ 2147483647) then .integerType
  else .longType

/-- `{"type": "integer", "minimum": 0, "maximum": 300}`. -/
def intRangeNode : Node :=
  .mk (some "integer") none none none none (some 0) none (some 300) none false false

/-- `{"type": "integer", "minimum": 0, "exclusiveMinimum": 10, "maximum": 100, "exclusiveMaximum": 50}`. -/
def bothBoundsNode : Node :=
  .mk (some "integer") none none none none (some 0) (some 10) (some 100) (some 50) false false

/-- `{"type": "boolean"}`. -/
def boolChildNode : Node :=
  .mk (some "boolean") none none none none none none none none false false

/-- `{"type": "string"}`. -/
def strChildNode : Node :=
  .mk (some "string") none none none none none none none none false false

/-- `{"type": "object", "properties": {"a": {"type": "boolean"}, "b": {"type": "string"}}, "required": ["b"]}`. -/
def objectNode : Node :=
  .mk (some "object") (some [("a", boolChildNode), ("b", strChildNode)])
    (some ["b"]) none none none none none none false false

/-- `{"type": "object", "properties": {}}`. -/
def emptyObjectNode : Node :=
  .mk (some "object") (some []) none none none none none none none false false

/-- `{"type": "array", "items": [{"type": "boolean"}, {"type": "string"}]}`. -/
def arrayTwoItemsNode : Node :=
  .mk (some "array") none none (some (.inr [boolChildNode, strChildNode]))
    none none none none none false false

/-- `{"anyOf": [...]}`: a node with no `type` key and `anyOf` present. -/
def anyOfItemNode : Node :=
  .mk none none none none none none none none none true false

/-- `{"type": "array", "items": [{"anyOf": [...]}]}`. -/
def arrayAnyOfItemNode : Node :=
  .mk (some "array") none none (some (.inr [anyOfItemNode]))
    none none none none none false false

/-- `{}`: a node with no `type`, no `anyOf` and no `const`. -/
def bareNode : Node :=
  .mk none none none none none none none none none false false

/-- `{"type": "frobnicate"}`. -/
def frobnicateNode : Node :=
  .mk (some "frobnicate") none none none none none none none none false false

/-- `{"type": "array", "items": []}`. -/
def emptyItemsArrayNode : Node :=
  .mk (some "array") none none (some (.inr [])) none none none none none false false

/-! Helper lemmas: unfolding the dispatch of `_map_json_type_to_spark_type`
under hypotheses about the node's keys, and structural facts about the
property and item loops. -/

theorem mapType_eq_of_ty_string (v : Node) (h : v.ty = some "string") :
    _map_json_type_to_spark_type v = .ok (some (_convert_json_string v)) := by
  rw [_map_json_type_to_spark_type]
  simp [h]

theorem mapType_eq_of_ty_integer (v : Node) (h : v.ty = some "integer") :
    _map_json_type_to_spark_type v = .ok (some (_convert_json_int v)) := by
  rw [_map_json_type_to_spark_type]
  simp [h]

theorem mapType_eq_of_ty_object (v : Node) (h : v.ty = some "object") :
    _map_json_type_to_spark_type v = (from_json_to_spark v).map fun st => some st := by
  rw [_map_json_type_to_spark_type]
  simp [h]

theorem mapType_eq_of_no_keywords (v : Node) (h1 : v.ty = none)
    (h2 : v.anyOf = false) (h3 : v.constKey = false) :
    _map_json_type_to_spark_type v = .ok none := by
  rw [_map_json_type_to_spark_type]
  simp [h1, h2, h3]

theorem mapType_eq_of_unknown_ty (v : Node) (t : String) (h : v.ty = some t)
    (hnot : t ∉ (["string", "boolean", "integer", "number", "array",
      "object", "null", "any"] : List String)) :
    _map_json_type_to_spark_type v = .error (.invalidType t) := by
  simp only [List.mem_cons, List.mem_singleton, not_or] at hnot
  rw [_map_json_type_to_spark_type]
  simp [h, hnot.1, hnot.2.1, hnot.2.2.1, hnot.2.2.2.1, hnot.2.2.2.2.1,
    hnot.2.2.2.2.2.1, hnot.2.2.2.2.2.2.1, hnot.2.2.2.2.2.2.2]

theorem mapType_eq_of_empty_items (v : Node) (its : Node ⊕ List Node)
    (h : v.ty = some "array") (hit : v.items = some its)
    (hz : normalizeItems its = []) :
    _map_json_type_to_spark_type v = .error .emptyItems := by
  rw [_map_json_type_to_spark_type]
  simp only [h]
  simp only [String.reduceEq, if_false, reduceIte]
  split
  next heq => rw [hit] at heq; cases heq
  next its2 heq =>
    rw [hit] at heq
    injection heq with e
    subst e
    simp [hz]

theorem mapType_eq_arrayLoop (v : Node) (its : Node ⊕ List Node)
    (h : v.ty = some "array") (hit : v.items = some its)
    (hnz : (normalizeItems its).length ≥ 1) :
    _map_json_type_to_spark_type v = arrayLoop none (normalizeItems its) := by
  rw [_map_json_type_to_spark_type]
  simp only [h]
  simp only [String.reduceEq, if_false, reduceIte]
  split
  next heq => rw [hit] at heq; cases heq
  next its2 heq =>
    rw [hit] at heq
    injection heq with e
    subst e
    have hlt : ¬ (normalizeItems its).length < 1 := by omega
    simp [hlt]

theorem from_json_to_spark_eq_of_props (v : Node) (ps : List (String × Node))
    (hp : v.props = some ps) :
    from_json_to_spark v = (mapFields v ps).map SparkType.structType := by
  rw [from_json_to_spark]
  split
  next heq => rw [hp] at heq; cases heq
  next ps2 heq =>
    rw [hp] at heq
    injection heq with e
    subst e
    rfl

theorem mapFields_ok_names (s : Node) (ps : List (String × Node))
    (fs : List (String × Option SparkType × Bool)) (hm : mapFields s ps = .ok fs) :
    fs.map (fun f => f.1) = ps.map (fun p => p.1) := by
  induction ps generalizing fs with
  | nil =>
      rw [mapFields] at hm
      injection hm with e
      subst e
      rfl
  | cons kv rest ih =>
      obtain ⟨key, value⟩ := kv
      rw [mapFields] at hm
      cases hmt : _map_json_type_to_spark_type value with
      | error e => rw [hmt] at hm; simp [Except.bind] at hm
      | ok ft =>
          rw [hmt] at hm
          simp only [Except.bind] at hm
          cases hrest : mapFields s rest with
          | error e => rw [hrest] at hm; simp [Except.map] at hm
          | ok tail =>
              rw [hrest] at hm
              simp only [Except.map] at hm
              injection hm with e
              subst e
              simp [ih tail hrest]

theorem mapFields_ok_nullable (s : Node) (ps : List (String × Node))
    (fs : List (String × Option SparkType × Bool)) (hm : mapFields s ps = .ok fs) :
    ∀ f ∈ fs, f.2.2 = !((s.req.getD []).contains f.1) := by
  induction ps generalizing fs with
  | nil =>
      rw [mapFields] at hm
      injection hm with e
      subst e
      intro f hf
      cases hf
  | cons kv rest ih =>
      obtain ⟨key, value⟩ := kv
      rw [mapFields] at hm
      cases hmt : _map_json_type_to_spark_type value with
      | error e => rw [hmt] at hm; simp [Except.bind] at hm
      | ok ft =>
          rw [hmt] at hm
          simp only [Except.bind] at hm
          cases hrest : mapFields s rest with
          | error e => rw [hrest] at hm; simp [Except.map] at hm
          | ok tail =>
              rw [hrest] at hm
              simp only [Except.map] at hm
              injection hm with e
              subst e
              intro f hf
              cases hf with
              | head => rfl
              | tail _ hmem => exact ih tail hrest f hmem

theorem arrayLoop_append_last (x : Node) (xs : List Node)
    (acc ft : Option SparkType) (hl : arrayLoop acc (xs ++ [x]) = .ok ft) :
    itemStep x = .ok ft := by
  induction xs generalizing acc with
  | nil =>
      simp only [List.nil_append] at hl
      rw [arrayLoop] at hl
      cases hstep : itemStep x with
      | error e => rw [hstep] at hl; simp [Except.bind] at hl
      | ok a =>
          rw [hstep] at hl
          simp only [Except.bind] at hl
          rw [arrayLoop] at hl
          injection hl with e
          subst e
          rfl
  | cons y ys ih =>
      simp only [List.cons_append] at hl
      rw [arrayLoop] at hl
      cases hstep : itemStep y with
      | error e => rw [hstep] at hl; simp [Except.bind] at hl
      | ok a =>
          rw [hstep] at hl
          simp only [Except.bind] at hl
          exact ih a hl

theorem arrayLoop_ok_mem_step (l : List Node) (acc ft : Option SparkType)
    (hl : arrayLoop acc l = .ok ft) :
    ∀ item ∈ l, ∃ r, itemStep item = .ok r := by
  induction l generalizing acc with
  | nil =>
      intro item hmem
      cases hmem
  | cons y ys ih =>
      intro item hmem
      rw [arrayLoop] at hl
      cases hstep : itemStep y with
      | error e => rw [hstep] at hl; simp [Except.bind] at hl
      | ok a =>
          rw [hstep] at hl
          simp only [Except.bind] at hl
          cases hmem with
          | head => exact ⟨a, hstep⟩
          | tail _ hm => exact ih a hl item hm

theorem itemStep_ok_shape (x : Node) (ft : Option SparkType)
    (hs : itemStep x = .ok ft) : ∃ e, ft = some (.arrayType e) := by
  rw [itemStep] at hs
  cases hty : x.ty with
  | none => rw [hty] at hs; cases hs
  | some t =>
      rw [hty] at hs
      simp only [] at hs
      by_cases hobj : t = "object"
      · rw [if_pos hobj] at hs
        cases hfs : from_json_to_spark x with
        | error e => rw [hfs] at hs; simp [Except.map] at hs
        | ok st =>
            rw [hfs] at hs
            simp only [Except.map] at hs
            injection hs with e
            exact ⟨some st, e.symm⟩
      · rw [if_neg hobj] at hs
        cases hms : _map_json_type_to_spark_type x with
        | error e => rw [hms] at hs; simp [Except.map] at hs
        | ok ft2 =>
            rw [hms] at hs
            simp only [Except.map] at hs
            injection hs with e
            exact ⟨ft2, e.symm⟩

theorem itemStep_eq_of_not_object (x : Node) (t : String) (hty : x.ty = some t)
    (hobj : t ≠ "object") :
    itemStep x = (_map_json_type_to_spark_type x).map fun ft => some (.arrayType ft) := by
  rw [itemStep]
  rw [hty]
  simp [hobj]

theorem itemStep_eq_of_no_ty (x : Node) (hty : x.ty = none) :
    itemStep x = .error (.keyError "type") := by
  rw [itemStep]
  rw [hty]

theorem range_defined_eq (v : Node) :
    (_determine_inclusive_range v).defined =
      ((_determine_inclusive_range v).min.isSome &&
        (_determine_inclusive_range v).max.isSome) := rfl

theorem mapType_boolChildNode :
    _map_json_type_to_spark_type boolChildNode = .ok (some SparkType.booleanType) := by
  rw [_map_json_type_to_spark_type]
  simp [Node.ty, boolChildNode]

theorem mapType_strChildNode :
    _map_json_type_to_spark_type strChildNode = .ok (some SparkType.stringType) := by
  rw [_map_json_type_to_spark_type]
  simp [Node.ty, strChildNode, _convert_json_string, Node.format]

theorem fjts_objectNode :
    from_json_to_spark objectNode =
      .ok (SparkType.structType
        [("a", some SparkType.booleanType, true),
         ("b", some SparkType.stringType, false)]) := by
  rw [from_json_to_spark_eq_of_props objectNode [("a", boolChildNode), ("b", strChildNode)] rfl]
  rw [mapFields]
  rw [mapType_boolChildNode]
  simp only [Except.bind]
  rw [mapFields]
  rw [mapType_strChildNode]
  simp only [Except.bind]
  rw [mapFields]
  simp [Node.req, objectNode, Except.map]

theorem itemStep_boolChildNode :
    itemStep boolChildNode = .ok (some (SparkType.arrayType (some SparkType.booleanType))) := by
  rw [itemStep_eq_of_not_object boolChildNode "boolean" rfl (by decide),
    mapType_boolChildNode]
  rfl

theorem itemStep_strChildNode :
    itemStep strChildNode = .ok (some (SparkType.arrayType (some SparkType.stringType))) := by
  rw [itemStep_eq_of_not_object strChildNode "string" rfl (by decide),
    mapType_strChildNode]
  rfl

theorem mapType_arrayTwoItemsNode :
    _map_json_type_to_spark_type arrayTwoItemsNode =
      .ok (some (SparkType.arrayType (some SparkType.stringType))) := by
  rw [mapType_eq_arrayLoop arrayTwoItemsNode (.inr [boolChildNode, strChildNode]) rfl rfl
    (by simp [normalizeItems])]
  simp only [normalizeItems]
  rw [arrayLoop]
  rw [itemStep_boolChildNode]
  simp only [Except.bind]
  rw [arrayLoop]
  rw [itemStep_strChildNode]
  simp only [Except.bind]
  rw [arrayLoop]

theorem mapType_arrayAnyOf :
    _map_json_type_to_spark_type arrayAnyOfItemNode = .error (.keyError "type") := by
  rw [mapType_eq_arrayLoop arrayAnyOfItemNode (.inr [anyOfItemNode]) rfl rfl
    (by simp [normalizeItems])]
  simp only [normalizeItems]
  rw [arrayLoop]
  rw [itemStep_eq_of_no_ty anyOfItemNode rfl]
  rfl

/-- C1: for every node of type "integer" whose derived inclusive numeric
range has both min and max defined, `_map_json_type_to_spark_type`
returns the narrowest of Byte ([-128,127]), Short ([-32768,32767]),
Int32 ([-2147483648,2147483647]), Int64 (default) that contains both min
and max inclusively, candidates checked narrowest-first (`narrowestFit`
is that selection rule written from the spec); if either bound is
missing it returns Int64. -/
theorem integer_width_narrowing (v : Node) (h : v.ty = some "integer") :
    _map_json_type_to_spark_type v = .ok (some (_convert_json_int v)) ∧
    (∀ mn mx : Int, (_determine_inclusive_range v).min = some mn →
      (_determine_inclusive_range v).max = some mx →
      _convert_json_int v = narrowestFit mn mx) ∧
    (((_determine_inclusive_range v).min = none ∨
      (_determine_inclusive_range v).max = none) →
      _convert_json_int v = SparkType.longType) := by
  refine ⟨mapType_eq_of_ty_integer v h, ?_, ?_⟩
  · intro mn mx hmn hmx
    have hdef : (_determine_inclusive_range v).defined = true := by
      rw [range_defined_eq, hmn, hmx]
      rfl
    simp only [_convert_json_int, hdef, hmn, hmx, if_true]
    simp only [narrowestFit, inByteRange, inShortRange, inIntRange,
      Bool.and_eq_true, decide_eq_true_eq]
  · intro hor
    have hdef : (_determine_inclusive_range v).defined = false := by
      rw [range_defined_eq]
      cases hor with
      | inl hl => rw [hl]; rfl
      | inr hr => rw [hr]; simp
    simp only [_convert_json_int]
    rw [hdef]
    simp

/-- Witness for C1 at `{"type": "integer", "minimum": 0, "maximum": 300}`:
the range is defined and the narrowest-first selection yields `Short`. -/
theorem integer_width_narrowing_witness :
    _map_json_type_to_spark_type intRangeNode = .ok (some (_convert_json_int intRangeNode)) ∧
    _convert_json_int intRangeNode = narrowestFit 0 300 ∧
    narrowestFit 0 300 = SparkType.shortType := by
  have h := integer_width_narrowing intRangeNode rfl
  refine ⟨h.1, h.2.1 0 300 rfl rfl, ?_⟩
  norm_num [narrowestFit]

/-- C2: the derived inclusive numeric range takes min from `minimum` or,
when the exclusive bound is present, `exclusiveMinimum` minus 1, and max
from `maximum` or `exclusiveMaximum` minus 1; it counts as defined
exactly when both min and max were resolved. -/
theorem inclusive_range_derivation (v : Node) :
    ((_determine_inclusive_range v).min =
      match v.exclusiveMinimum with
      | some e => some (e - 1)
      | none => v.minimum) ∧
    ((_determine_inclusive_range v).max =
      match v.exclusiveMaximum with
      | some e => some (e - 1)
      | none => v.maximum) ∧
    ((_determine_inclusive_range v).defined = true ↔
      (_determine_inclusive_range v).min ≠ none ∧
        (_determine_inclusive_range v).max ≠ none) := by
  refine ⟨?_, ?_, ?_⟩
  · cases he : v.exclusiveMinimum <;> cases hm : v.minimum <;>
      simp [_determine_inclusive_range, he, hm]
  · cases he : v.exclusiveMaximum <;> cases hm : v.maximum <;>
      simp [_determine_inclusive_range, he, hm]
  · rw [range_defined_eq]
    simp [Option.ne_none_iff_isSome]

/-- C10: when both `minimum` and `exclusiveMinimum` are present the
derived min is `exclusiveMinimum - 1` (the exclusive keyword silently
wins), and when both `maximum` and `exclusiveMaximum` are present the
derived max is `exclusiveMaximum - 1`. -/
theorem exclusive_bound_precedence (v : Node) (mn emn mx emx : Int)
    (h1 : v.minimum = some mn) (h2 : v.exclusiveMinimum = some emn)
    (h3 : v.maximum = some mx) (h4 : v.exclusiveMaximum = some emx) :
    (_determine_inclusive_range v).min = some (emn - 1) ∧
    (_determine_inclusive_range v).max = some (emx - 1) := by
  constructor <;> simp [_determine_inclusive_range, h1, h2, h3, h4]

/-- Witness for C10 at  `{"type": "integer", "minimum": 0,
"exclusiveMinimum": 10, "maximum": 100, "exclusiveMaximum": 50}`: the
exclusive bounds win, giving `[9, 49]`. -/
theorem exclusive_bound_precedence_witness :
    (_determine_inclusive_range bothBoundsNode).min = some 9 ∧
    (_determine_inclusive_range bothBoundsNode).max = some 49 := by
  have h := exclusive_bound_precedence bothBoundsNode 0 10 100 50 rfl rfl rfl rfl
  norm_num at h
  exact h

/-- C3: for every object node with properties, `from_json_to_spark`
yields a struct with exactly one field per property, in the iteration
order of the `properties` mapping (field names equal property names in
order); an empty `properties` mapping yields a zero-field struct and
raises no error. -/
theorem object_struct_field_order (v : Node) (ps : List (String × Node))
    (hp : v.props = some ps) :
    (∀ st, from_json_to_spark v = .ok st →
      ∃ fields, st = SparkType.structType fields ∧
        fields.map (fun f => f.1) = ps.map (fun p => p.1)) ∧
    (ps = [] → from_json_to_spark v = .ok (SparkType.structType [])) := by
  have hunf := from_json_to_spark_eq_of_props v ps hp
  constructor
  · intro st hok
    rw [hunf] at hok
    cases hm : mapFields v ps with
    | error e => rw [hm] at hok; simp [Except.map] at hok
    | ok fs =>
        rw [hm] at hok
        simp only [Except.map] at hok
        injection hok with e
        exact ⟨fs, e.symm, mapFields_ok_names v ps fs hm⟩
  · intro hps
    subst hps
    rw [hunf]
    simp [mapFields, Except.map]

/-- Witness for C3: the empty-properties object maps to the zero-field
struct with no error. -/
theorem object_struct_field_order_witness :
    from_json_to_spark emptyObjectNode = .ok (SparkType.structType []) :=
  (object_struct_field_order emptyObjectNode [] rfl).2 rfl

/-- C4: for every field produced by `from_json_to_spark`, the nullable
flag is false if and only if the field's name appears in the parent
node's `required` list, which defaults to the empty list when the key is
absent. -/
theorem field_nullable_iff_required (v : Node) (ps : List (String × Node))
    (fields : List (String × Option SparkType × Bool))
    (hp : v.props = some ps)
    (hok : from_json_to_spark v = .ok (SparkType.structType fields)) :
    ∀ f ∈ fields, (f.2.2 = false ↔ f.1 ∈ v.req.getD []) := by
  have hunf := from_json_to_spark_eq_of_props v ps hp
  rw [hunf] at hok
  cases hm : mapFields v ps with
  | error e => rw [hm] at hok; simp [Except.map] at hok
  | ok fs =>
      rw [hm] at hok
      simp only [Except.map] at hok
      injection hok with e
      injection e with e2
      subst e2
      intro f hf
      have hb := mapFields_ok_nullable v ps _ hm f hf
      rw [hb]
      simp

/-- Witness for C4 at the object
`{"properties": {"a": boolean, "b": string}, "required": ["b"]}`: the
field `b` is non-nullable, so its name is in the required list. -/
theorem field_nullable_iff_required_witness :
    ("b" : String) ∈ objectNode.req.getD [] := by
  have h := field_nullable_iff_required objectNode
    [("a", boolChildNode), ("b", strChildNode)]
    [("a", some SparkType.booleanType, true), ("b", some SparkType.stringType, false)]
    rfl fjts_objectNode
  exact (h ("b", some SparkType.stringType, false) (by simp)).mp rfl

/-- C7: a node with no `type`, no `anyOf` and no `const` key maps to an
absent value (`ok none`) with no error raised, and the absent value
propagates to the caller's field list rather than a diagnostic. -/
theorem missing_keywords_yields_none (v : Node) (h1 : v.ty = none)
    (h2 : v.anyOf = false) (h3 : v.constKey = false) :
    _map_json_type_to_spark_type v = .ok none ∧
    (∀ (schema : Node) (key : String),
      mapFields schema [(key, v)] =
        .ok [(key, none, !((schema.req.getD []).contains key))]) := by
  have h := mapType_eq_of_no_keywords v h1 h2 h3
  refine ⟨h, ?_⟩
  intro schema key
  simp only [mapFields, h, Except.bind, Except.map]

/-- Witness for C7 at the bare node `{}`: the mapper yields no value and
the caller stores a field with an absent type. -/
theorem missing_keywords_yields_none_witness :
    _map_json_type_to_spark_type bareNode = .ok none ∧
    mapFields bareNode [("x", bareNode)] = .ok [("x", none, true)] := by
  have h := missing_keywords_yields_none bareNode rfl rfl rfl
  refine ⟨h.1, ?_⟩
  simpa using h.2 bareNode "x"

/-- C8: a node whose `type` is a string outside the recognized set
(string, boolean, integer, number, array, object, null, any) fails with
the invalid-type error, immediately and with no partial result. -/
theorem unknown_type_invalid (v : Node) (t : String) (h : v.ty = some t)
    (hnot : t ∉ (["string", "boolean", "integer", "number", "array",
      "object", "null", "any"] : List String)) :
    _map_json_type_to_spark_type v = .error (.invalidType t) :=
  mapType_eq_of_unknown_ty v t h hnot

/-- Witness for C8 at `{"type": "frobnicate"}`. -/
theorem unknown_type_invalid_witness :
    _map_json_type_to_spark_type frobnicateNode = .error (.invalidType "frobnicate") :=
  unknown_type_invalid frobnicateNode "frobnicate" rfl (by decide)

/-- C9: an array node whose `items` key is present and whose normalized
items list has zero elements fails with the empty-items error. -/
theorem empty_items_error (v : Node) (its : Node ⊕ List Node)
    (hty : v.ty = some "array") (hit : v.items = some its)
    (hz : normalizeItems its = []) :
    _map_json_type_to_spark_type v = .error .emptyItems :=
  mapType_eq_of_empty_items v its hty hit hz

/-- Witness for C9 at `{"type": "array", "items": []}`. -/
theorem empty_items_error_witness :
    _map_json_type_to_spark_type emptyItemsArrayNode = .error .emptyItems :=
  empty_items_error emptyItemsArrayNode (.inr []) rfl rfl rfl

/-- C5: for every array node whose `items` list has more than one item
schema, a successful mapping returns `Array(elementType)` where
`elementType` is the one computed for the LAST item of the list (the
loop overwrites, it does not merge). -/
theorem array_last_item_wins (v : Node) (l xs : List Node) (x : Node)
    (ft : Option SparkType)
    (hty : v.ty = some "array") (hit : v.items = some (.inr l))
    (hl : l = xs ++ [x]) (hlen : 1 < l.length)
    (hok : _map_json_type_to_spark_type v = .ok ft) :
    ∃ e, ft = some (SparkType.arrayType e) ∧
      itemStep x = .ok (some (SparkType.arrayType e)) := by
  have hnz : (normalizeItems (Sum.inr l : Node ⊕ List Node)).length ≥ 1 := by
    simp only [normalizeItems]
    omega
  rw [mapType_eq_arrayLoop v _ hty hit hnz] at hok
  simp only [normalizeItems] at hok
  rw [hl] at hok
  have hstep := arrayLoop_append_last x xs none ft hok
  obtain ⟨e, he⟩ := itemStep_ok_shape x ft hstep
  refine ⟨e, he, ?_⟩
  rw [← he]
  exact hstep

/-- Witness for C5 at
`{"type": "array", "items": [{"type": "boolean"}, {"type": "string"}]}`:
the mapping succeeds with `Array(String)`, the type of the last item. -/
theorem array_last_item_wins_witness :
    itemStep strChildNode = .ok (some (SparkType.arrayType (some SparkType.stringType))) := by
  obtain ⟨e, he, hs⟩ := array_last_item_wins arrayTwoItemsNode
    [boolChildNode, strChildNode] [boolChildNode] strChildNode
    (some (SparkType.arrayType (some SparkType.stringType)))
    rfl rfl rfl (by simp) mapType_arrayTwoItemsNode
  injection he with he1
  injection he1 with he2
  rw [← he2] at hs
  exact hs

/-- C6 counterexample: in the array
`{"type": "array", "items": [{"anyOf": [...]}]}` the item has no `type`
key, so the loop's `item_schema['type']` lookup raises a `KeyError`
instead of mapping the item to `String`; the array does not map to
`Array(String)`. -/
theorem array_anyOf_item_keyerror :
    _map_json_type_to_spark_type arrayAnyOfItemNode = .error (.keyError "type") ∧
    _map_json_type_to_spark_type arrayAnyOfItemNode ≠
      .ok (some (SparkType.arrayType (some SparkType.stringType))) := by
  have h := mapType_arrayAnyOf
  refine ⟨h, ?_⟩
  rw [h]
  intro hc
  cases hc

/-- C6 amended: for every array node whose `items` key is present and
whose normalized items list (a single node wrapped into a one-element
list, a list kept as is) is non-empty, the mapping runs the item loop
over that list; each item whose `type` key is present and differs from
"object" is mapped via `_map_json_type_to_spark_type` and wrapped in
`Array(...)` by its loop step; an item with no `type` key (even with
`anyOf` present) makes its loop step raise a `KeyError` on "type", so an
array containing such an item fails with an error instead of yielding
`Array(String)`. -/
theorem array_item_dispatch (v : Node) (its : Node ⊕ List Node)
    (hty : v.ty = some "array") (hit : v.items = some its)
    (hne : normalizeItems its ≠ []) :
    _map_json_type_to_spark_type v = arrayLoop none (normalizeItems its) ∧
    (∀ item ∈ normalizeItems its,
      (∀ t : String, item.ty = some t → t ≠ "object" →
        itemStep item = (_map_json_type_to_spark_type item).map fun ft =>
          some (SparkType.arrayType ft)) ∧
      (item.ty = none → itemStep item = .error (.keyError "type"))) ∧
    ((∃ item ∈ normalizeItems its, item.ty = none) →
      ∃ err, _map_json_type_to_spark_type v = .error err) := by
  have hnz : (normalizeItems its).length ≥ 1 := by
    cases hn : normalizeItems its with
    | nil => exact absurd hn hne
    | cons a l => simp [hn]
  have hloop := mapType_eq_arrayLoop v its hty hit hnz
  refine ⟨hloop, ?_, ?_⟩
  · intro item _
    exact ⟨fun t htt hobj => itemStep_eq_of_not_object item t htt hobj,
      fun hnone => itemStep_eq_of_no_ty item hnone⟩
  · rintro ⟨item, hmem, hnone⟩
    rw [hloop]
    cases hres : arrayLoop none (normalizeItems its) with
    | error err => exact ⟨err, rfl⟩
    | ok ft =>
        obtain ⟨r, hr⟩ :=
          arrayLoop_ok_mem_step (normalizeItems its) none ft hres item hmem
        rw [itemStep_eq_of_no_ty item hnone] at hr
        cases hr

/-- Witness for the amended C6 at the two-item array
`{"type": "array", "items": [{"type": "boolean"}, {"type": "string"}]}`:
the mapping runs the item loop over both items, and the non-object
string item's step maps it via `_map_json_type_to_spark_type` and wraps
it in `Array`. -/
theorem array_item_dispatch_witness :
    _map_json_type_to_spark_type arrayTwoItemsNode =
      arrayLoop none [boolChildNode, strChildNode] ∧
    itemStep strChildNode =
      (_map_json_type_to_spark_type strChildNode).map fun ft =>
        some (SparkType.arrayType ft) := by
  have h := array_item_dispatch arrayTwoItemsNode (.inr [boolChildNode, strChildNode])
    rfl rfl (by simp [normalizeItems])
  refine ⟨?_, ?_⟩
  · simpa [normalizeItems] using h.1
  · exact (h.2.1 strChildNode (by simp [normalizeItems])).1 "string" rfl (by decide)

end Json2Spark
